import Mathlib

/-!
Verification of the image-composition engine of the
"Specialized Image Composition Tool for Research Papers" repository.

The Python sources (`image_process.py`, `gui.py`, `config.py`) are shallowly
embedded: an image is modelled by its pixel dimensions, Python's float
arithmetic on ratios is modelled by exact rational arithmetic (all the
floors that `int(...)` performs on positive values become natural-number
division), and a `try`/`except` body is modelled as an `Option`-valued
computation whose `none` outcome stands for a raised-then-caught exception.
-/

namespace ImgTool

/-- A decoded raster image, modelled by its pixel dimensions.  Pixel content
and color mode never influence any dimension computed by the engine. -/
structure Img where
  width : Nat
  height : Nat
deriving DecidableEq, Repr

instance : Inhabited Img := ⟨⟨0, 0⟩⟩

/-- The `mode` string accepted by `ImageProcessor.resize_image`
(`'original'`, `'longest_edge'`, `'shortest_edge'`, `'custom'`, `'crop'`);
`other` stands for any unrecognized string, which falls through to the final
`return img` of the Python function. -/
inductive RMode
  | original
  | longest_edge
  | shortest_edge
  | custom
  | crop
  | other
deriving DecidableEq, Repr

/-- The two PIL resampling filters selected by the `fast` flag
(`Image.Resampling.NEAREST` for previews, `LANCZOS` for export).
The filter changes interpolation quality only, never the size that
`PIL.Image.resize` produces, so the dimension model below threads it
through `resize_calls` without letting it touch any width or height. -/
inductive Filter
  | nearest
  | lanczos
deriving DecidableEq, Repr

/-- `resize_algorithm = Image.Resampling.NEAREST if fast else LANCZOS`. -/
def resize_algorithm (fast : Bool) : Filter :=
  if fast then Filter.nearest else Filter.lanczos

/-- The body of the `try:` block of `ImageProcessor.resize_image`
(`image_process.py` lines 137-200), returning `none` exactly where the Python
body raises (every raise in it is a `ZeroDivisionError` from a degenerate
dimension or a zero ratio component).  Python's `int(x)` on the
non-negative quotients that appear here is floor, so each float expression
`int(a / (p/q))` and `int(a * (p/q))` is modelled by the natural-number
division `a*q/p` resp. `a*p/q` of its exact rational value. -/
def resize_body (img : Img) (mode : RMode) (size : Nat)
    (ar : Option (Nat × Nat)) : Option Img :=
  if mode = RMode.original then some img
  else
    match ar with
    | some (rw, rh) =>
      -- target_ratio = aspect_ratio[0] / aspect_ratio[1]
      if rh = 0 then none
      -- current_ratio = img.width / img.height
      else if img.height = 0 then none
      -- current_ratio > target_ratio  ⟺  width * rh > height * rw
      else if img.width * rh > img.height * rw then
        -- new_width = size; new_height = int(size / target_ratio)
        if rw = 0 then none
        else
          let newH := size * rh / rw
          -- crop applies (ratios differ): width becomes int(height * target_ratio)
          some ⟨newH * rw / rh, newH⟩
      else if img.width * rh < img.height * rw then
        -- new_height = size; new_width = int(size * target_ratio)
        let newW := size * rw / rh
        -- crop applies: height becomes int(width / target_ratio)
        if rw = 0 then none
        else some ⟨newW, newW * rh / rw⟩
      else
        -- ratios equal: scaled by the height-dominant rule, no crop
        some ⟨size * rw / rh, size⟩
    | none =>
      match mode with
      | RMode.longest_edge =>
        -- ratio = size / max(width, height)
        if max img.width img.height = 0 then none
        else some ⟨img.width * size / max img.width img.height,
                   img.height * size / max img.width img.height⟩
      | RMode.shortest_edge =>
        -- ratio = size / min(width, height)
        if min img.width img.height = 0 then none
        else some ⟨img.width * size / min img.width img.height,
                   img.height * size / min img.width img.height⟩
      | RMode.custom =>
        -- same scale rule as shortest_edge
        if min img.width img.height = 0 then none
        else some ⟨img.width * size / min img.width img.height,
                   img.height * size / min img.width img.height⟩
      | RMode.crop =>
        -- center crop to min(width, height) square, then resize to (size, size)
        some ⟨size, size⟩
      | _ => some img

/-- `ImageProcessor.resize_image`: the `except` clause swallows every
exception of the body and returns the input image unchanged. -/
def resize_image (img : Img) (mode : RMode) (size : Nat)
    (ar : Option (Nat × Nat)) (fast : Bool) : Img :=
  let _filter := resize_algorithm fast
  (resize_body img mode size ar).getD img

/-- The target geometry of each `img.resize(...)` call the body performs on
its non-raising path (the empty list when the body raises or never calls
`resize`). -/
def resize_geoms (img : Img) (mode : RMode) (size : Nat)
    (ar : Option (Nat × Nat)) : List (Nat × Nat) :=
  if mode = RMode.original then []
  else
    match ar with
    | some (rw, rh) =>
      if rh = 0 then []
      else if img.height = 0 then []
      else if img.width * rh > img.height * rw then
        if rw = 0 then [] else [(size, size * rh / rw)]
      else [(size * rw / rh, size)]
    | none =>
      match mode with
      | RMode.longest_edge =>
        if max img.width img.height = 0 then []
        else [(img.width * size / max img.width img.height,
               img.height * size / max img.width img.height)]
      | RMode.shortest_edge =>
        if min img.width img.height = 0 then []
        else [(img.width * size / min img.width img.height,
               img.height * size / min img.width img.height)]
      | RMode.custom =>
        if min img.width img.height = 0 then []
        else [(img.width * size / min img.width img.height,
               img.height * size / min img.width img.height)]
      | RMode.crop => [(size, size)]
      | _ => []

/-- Each `img.resize` call together with the resampling filter passed to it;
the source passes the single filter chosen from `fast` to every call. -/
def resize_calls (img : Img) (mode : RMode) (size : Nat)
    (ar : Option (Nat × Nat)) (fast : Bool) : List (Nat × Nat × Filter) :=
  (resize_geoms img mode size ar).map (fun g => (g.1, g.2, resize_algorithm fast))

/-- Label text generation of `ImageProcessor.add_labels`
(`image_process.py` lines 383-388): the three format strings
`'(a)'`, `'a/'`, `'Fig1a'`. -/
inductive LabelFormat
  | paren
  | slash
  | fig1
deriving DecidableEq, Repr

/-- `chr(97 + label_idx)` wrapped into the chosen format template.  The
source applies no modulo to `label_idx`. -/
def labelText (fmt : LabelFormat) (i : Nat) : String :=
  match fmt with
  | LabelFormat.paren => "(" ++ (Char.ofNat (97 + i)).toString ++ ")"
  | LabelFormat.slash => (Char.ofNat (97 + i)).toString ++ "/"
  | LabelFormat.fig1 => "Fig1" ++ (Char.ofNat (97 + i)).toString

/-- The lowercase alphabet, used to state label correctness independently of
the `chr` arithmetic in `labelText`. -/
def lowercaseAlphabet : List Char := "abcdefghijklmnopqrstuvwxyz".toList

example : labelText LabelFormat.paren 0 = "(a)" := by decide
example : labelText LabelFormat.paren 25 = "(z)" := by decide
example : labelText LabelFormat.paren 26 = "(\x7b)" := by decide
example : resize_image ⟨200, 100⟩ RMode.longest_edge 101 (some (3, 2)) false = ⟨100, 67⟩ := by decide
example : resize_image ⟨0, 0⟩ RMode.longest_edge 800 none false = ⟨0, 0⟩ := by decide
example : resize_image ⟨400, 300⟩ RMode.longest_edge 100 none false = ⟨100, 75⟩ := by decide

/-- C2 (counterexample): `add_labels` applies no modulo to the label index,
so linear index 26 produces `"({)"` (`chr(123)`) under format `'(a)'`, not
the claimed wrapped `"(a)"`; likewise for the other two formats. -/
theorem c2_label_counterexample :
    labelText LabelFormat.paren 26 = "(\x7b)" ∧
    labelText LabelFormat.paren 26 ≠ "(a)" ∧
    labelText LabelFormat.slash 26 ≠ "a/" ∧
    labelText LabelFormat.fig1 26 ≠ "Fig1a" := by decide

/-- C2 (amended): for linear index `i < 26` the drawn text is built from the
`i`-th lowercase letter in each of the three formats; no modulo-26 wrap is
applied by the code, so indices `≥ 26` leave the alphabet instead of
wrapping (see the counterexample at index 26). -/
theorem c2_label_no_wrap (i : Nat) (h : i < 26) :
    labelText LabelFormat.paren i = "(" ++ (lowercaseAlphabet.getD i 'a').toString ++ ")" ∧
    labelText LabelFormat.slash i = (lowercaseAlphabet.getD i 'a').toString ++ "/" ∧
    labelText LabelFormat.fig1 i = "Fig1" ++ (lowercaseAlphabet.getD i 'a').toString := by
  interval_cases i <;> decide

/-- Witness for `c2_label_no_wrap` at index 0. -/
theorem c2_witness :
    (0 : Nat) < 26 ∧
    labelText LabelFormat.paren 0 = "(" ++ (lowercaseAlphabet.getD 0 'a').toString ++ ")" :=
  ⟨by decide, (c2_label_no_wrap 0 (by decide)).1⟩

/-- C3 (counterexample): forced aspect ratio (3, 2) at target size 101 on a
200×100 source yields a 100×67 image (`new_height = int(101/1.5) = 67`, crop
width `int(67·1.5) = 100`), and `100/67 ≠ 3/2`: the output ratio is not
exactly the requested one. -/
theorem c3_aspect_counterexample :
    resize_image ⟨200, 100⟩ RMode.longest_edge 101 (some (3, 2)) false = ⟨100, 67⟩ ∧
    (100 : Nat) * 2 ≠ 67 * 3 := by decide

/-- C3 (amended): for positive source dimensions and a positive forced
ratio pair, the resized-then-cropped output matches the requested ratio to
within one pixel of floor rounding —
`|width·ratioH − height·ratioW| < max ratioW ratioH` — but not exactly,
because the crop bounds are floor divisions of the scaled dimensions. -/
theorem c3_aspect_within_one_pixel (w h rw rh size : Nat) (mode : RMode) (fast : Bool)
    (hm : mode ≠ RMode.original) (_hw : 0 < w) (hh : 0 < h)
    (hrw : 0 < rw) (hrh : 0 < rh) :
    (resize_image ⟨w, h⟩ mode size (some (rw, rh)) fast).height * rw <
      (resize_image ⟨w, h⟩ mode size (some (rw, rh)) fast).width * rh + rh ∧
    (resize_image ⟨w, h⟩ mode size (some (rw, rh)) fast).width * rh <
      (resize_image ⟨w, h⟩ mode size (some (rw, rh)) fast).height * rw + rw := by
  have hdivle : ∀ a b : Nat, a / b * b ≤ a := fun a b => Nat.div_mul_le_self a b
  simp only [resize_image, resize_body, if_neg hm, hrh.ne', if_false,
    hh.ne', ite_false]
  rcases Nat.lt_trichotomy (h * rw) (w * rh) with hlt | heq | hgt
  · simp only [if_pos hlt, hrw.ne', ite_false, Option.getD_some]
    exact ⟨Nat.lt_div_mul_add hrh,
      Nat.lt_of_le_of_lt (hdivle _ _) (Nat.lt_add_of_pos_right hrw)⟩
  · simp only [heq, lt_irrefl, ite_false, Option.getD_some]
    exact ⟨Nat.lt_div_mul_add hrh,
      Nat.lt_of_le_of_lt (hdivle _ _) (Nat.lt_add_of_pos_right hrw)⟩
  · simp only [if_neg (Nat.lt_asymm hgt), if_pos hgt, hrw.ne', ite_false,
      Option.getD_some]
    exact ⟨Nat.lt_of_le_of_lt (hdivle _ _) (Nat.lt_add_of_pos_right hrh),
      Nat.lt_div_mul_add hrw⟩

/-- Witness for `c3_aspect_within_one_pixel` on a 2×1 source forced to 1:1. -/
theorem c3_witness :
    (RMode.longest_edge ≠ RMode.original ∧ (0 : Nat) < 2 ∧ (0 : Nat) < 1) ∧
    ((resize_image ⟨2, 1⟩ RMode.longest_edge 10 (some (1, 1)) false).height * 1 <
      (resize_image ⟨2, 1⟩ RMode.longest_edge 10 (some (1, 1)) false).width * 1 + 1 ∧
    (resize_image ⟨2, 1⟩ RMode.longest_edge 10 (some (1, 1)) false).width * 1 <
      (resize_image ⟨2, 1⟩ RMode.longest_edge 10 (some (1, 1)) false).height * 1 + 1) :=
  ⟨⟨by decide, by decide, by decide⟩,
    c3_aspect_within_one_pixel 2 1 1 1 10 RMode.longest_edge false
      (by decide) (by decide) (by decide) (by decide) (by decide)⟩

/-- C4 (counterexample): on a 0×0 source in `longest_edge` mode the body of
`resize_image` raises `ZeroDivisionError` (`size / max(0,0)`), the blanket
`except` swallows it, and the original image is silently returned — no
`ResizeError` is raised (no such class exists in the code). -/
theorem c4_zero_dim_counterexample :
    resize_body ⟨0, 0⟩ RMode.longest_edge 800 none = none ∧
    resize_image ⟨0, 0⟩ RMode.longest_edge 800 none false = ⟨0, 0⟩ := by decide

/-- C4 (amended): a degenerate source never surfaces an error:
`shortest_edge` and `custom` divide by `min(w, h)` and silently return the
source whenever either dimension is zero; `longest_edge` does the same when
both are zero; and in general every internally raised exception makes
`resize_image` return its input unchanged. -/
theorem c4_zero_dim_silent_return (img : Img) (size : Nat) (fast : Bool)
    (hmin : min img.width img.height = 0) :
    resize_image img RMode.shortest_edge size none fast = img ∧
    resize_image img RMode.custom size none fast = img ∧
    (max img.width img.height = 0 →
      resize_image img RMode.longest_edge size none fast = img) ∧
    (∀ m : RMode, resize_body img m size none = none →
      resize_image img m size none fast = img) := by
  refine ⟨?_, ?_, fun hmax => ?_, fun m hm => ?_⟩
  · simp [resize_image, resize_body, hmin]
  · simp [resize_image, resize_body, hmin]
  · simp [resize_image, resize_body, hmax]
  · simp [resize_image, hm]

/-- Witness for `c4_zero_dim_silent_return` on a 0×5 source. -/
theorem c4_witness :
    min (Img.mk 0 5).width (Img.mk 0 5).height = 0 ∧
    resize_image ⟨0, 5⟩ RMode.shortest_edge 800 none false = ⟨0, 5⟩ :=
  ⟨by decide, (c4_zero_dim_silent_return ⟨0, 5⟩ 800 false (by decide)).1⟩

/-- C5 (confirmed): `longest_edge` scales both dimensions by
`size / max(w, h)` with floor rounding, and the longest edge of the result
equals the target exactly (hence within the claimed ±1 px). -/
theorem c5_longest_edge_dims (w h size : Nat) (fast : Bool)
    (hw : 0 < w) (hh : 0 < h) (_hs : 0 < size) :
    resize_image ⟨w, h⟩ RMode.longest_edge size none fast =
      ⟨w * size / max w h, h * size / max w h⟩ ∧
    max (w * size / max w h) (h * size / max w h) = size := by
  have hmax : max w h ≠ 0 := (Nat.lt_of_lt_of_le hw (le_max_left w h)).ne'
  constructor
  · simp [resize_image, resize_body, hmax]
  · rcases le_total w h with hle | hle
    · rw [Nat.max_eq_right hle]
      have h1 : h * size / h = size := Nat.mul_div_cancel_left size hh
      have h2 : w * size / h ≤ size :=
        le_of_le_of_eq (Nat.div_le_div_right (Nat.mul_le_mul_right size hle)) h1
      rw [h1]
      exact Nat.max_eq_right h2
    · rw [Nat.max_eq_left hle]
      have h1 : w * size / w = size := Nat.mul_div_cancel_left size hw
      have h2 : h * size / w ≤ size :=
        le_of_le_of_eq (Nat.div_le_div_right (Nat.mul_le_mul_right size hle)) h1
      rw [h1]
      exact Nat.max_eq_left h2

/-- Witness for `c5_longest_edge_dims` on a 400×300 source at target 100. -/
theorem c5_witness :
    ((0 : Nat) < 400 ∧ (0 : Nat) < 300 ∧ (0 : Nat) < 100) ∧
    (resize_image ⟨400, 300⟩ RMode.longest_edge 100 none false =
      ⟨400 * 100 / max 400 300, 300 * 100 / max 400 300⟩ ∧
    max (400 * 100 / max 400 300) (300 * 100 / max 400 300) = 100) :=
  ⟨⟨by decide, by decide, by decide⟩,
    c5_longest_edge_dims 400 300 100 false (by decide) (by decide) (by decide)⟩

/-- C8 (confirmed): the `fast` flag selects only the resampling filter; the
final dimensions and the geometry of every internal `resize` call are
identical between `fast=True` and `fast=False`, and the filters attached to
those calls are NEAREST resp. LANCZOS. -/
theorem c8_fast_slow_same_dims (img : Img) (mode : RMode) (size : Nat)
    (ar : Option (Nat × Nat)) :
    (resize_image img mode size ar true).width =
      (resize_image img mode size ar false).width ∧
    (resize_image img mode size ar true).height =
      (resize_image img mode size ar false).height ∧
    (resize_calls img mode size ar true).map (fun c => (c.1, c.2.1)) =
      (resize_calls img mode size ar false).map (fun c => (c.1, c.2.1)) ∧
    (resize_calls img mode size ar true).map (fun c => c.2.2) =
      List.replicate (resize_geoms img mode size ar).length Filter.nearest ∧
    (resize_calls img mode size ar false).map (fun c => c.2.2) =
      List.replicate (resize_geoms img mode size ar).length Filter.lanczos := by
  refine ⟨rfl, rfl, ?_, ?_, ?_⟩ <;>
    simp [resize_calls, List.map_map, resize_algorithm, Function.comp_def,
      List.map_const']

/-! ## Grid layout and composition (`ImageProcessor.create_combined_image`) -/

/-- The alignment strings accepted by `create_combined_image`
(`'center'`, `'left'`, anything else is treated as right-aligned). -/
inductive Align
  | center
  | left
  | right
deriving DecidableEq, Repr

/-- The background choices offered by the GUI (`'white'`, `'transparent'`,
`'black'`); only `'transparent'` changes the engine's behavior (RGBA
canvas). -/
inductive BgColor
  | white
  | transparent
  | black
deriving DecidableEq, Repr

/-- `max_height` accumulated over row `r`: the loop at
`image_process.py` lines 229-235 takes `max` of the heights of the images
whose row-major index `r*cols + c` is in range, starting from 0. -/
def rowHeight (images : List Img) (cols r : Nat) : Nat :=
  ((List.range cols).filterMap (fun c => images[r * cols + c]?)).foldl
    (fun m im => max m im.height) 0

/-- `row_heights` list, one entry per row. -/
def rowHeights (images : List Img) (rows cols : Nat) : List Nat :=
  (List.range rows).map (rowHeight images cols)

/-- `max_width` accumulated over column `c` (lines 237-243). -/
def colWidth (images : List Img) (rows cols c : Nat) : Nat :=
  ((List.range rows).filterMap (fun r => images[r * cols + c]?)).foldl
    (fun m im => max m im.width) 0

/-- `col_widths` list, one entry per column. -/
def colWidths (images : List Img) (rows cols : Nat) : List Nat :=
  (List.range cols).map (colWidth images rows cols)

/-- The value of `x_offset` when the paste loop reaches column `c`:
`margin` plus `col_widths[c'] + h_spacing` for every earlier column. -/
def cellX (cw : List Nat) (hs margin c : Nat) : Nat :=
  margin + (cw.take c).sum + c * hs

/-- The value of `y_offset` when the paste loop reaches row `r`. -/
def cellY (rh : List Nat) (vs margin r : Nat) : Nat :=
  margin + (rh.take r).sum + r * vs

/-- Horizontal offset of an image inside its cell
(lines 273-281): centered, flush left, or flush right. -/
def alignDX (al : Align) (cw w : Nat) : Nat :=
  match al with
  | Align.center => (cw - w) / 2
  | Align.left => 0
  | Align.right => cw - w

/-- Vertical offset inside the cell: always centered, whatever the
horizontal alignment. -/
def alignDY (rh h : Nat) : Nat := (rh - h) / 2

/-- One executed `combined.paste(img, (x, y))` of the paste loop, with the
loop indices that produced it. -/
structure Placement where
  idx : Nat
  row : Nat
  col : Nat
  x : Nat
  y : Nat
  img : Img
deriving DecidableEq, Repr

/-- All pastes performed by `create_combined_image`'s nested loop
(lines 264-290), row by row then column by column, skipping indices past
the end of the image list. -/
def placements (images : List Img) (rows cols hs vs margin : Nat)
    (al : Align) : List Placement :=
  let cw := colWidths images rows cols
  let rh := rowHeights images rows cols
  (List.range rows).flatMap (fun r =>
    (List.range cols).filterMap (fun c =>
      (images[r * cols + c]?).map (fun im =>
        { idx := r * cols + c, row := r, col := c,
          x := cellX cw hs margin c + alignDX al (cw.getD c 0) im.width,
          y := cellY rh vs margin r + alignDY (rh.getD r 0) im.height,
          img := im })))

/-- One `draw.text((text_x, text_y), label_text, ...)` call of
`add_labels`.  Coordinates are integers because the right/bottom anchors
subtract a measured text extent that may exceed the image extent. -/
structure DrawnLabel where
  idx : Nat
  text : String
  x : Int
  y : Int
deriving DecidableEq, Repr

/-- The composed output: canvas dimensions, canvas mode, the pastes, and
the labels drawn onto it (empty until `add_labels` runs). -/
structure Canvas where
  width : Nat
  height : Nat
  rgba : Bool
  pastes : List Placement
  labels : List DrawnLabel
deriving DecidableEq, Repr

/-- The 16K safety ceiling (`max_canvas_size`) of
`create_combined_image`. -/
def maxCanvasSize : Nat := 16384

/-- Unscaled total canvas width:
`sum(col_widths) + (cols-1)*h_spacing + 2*margin`.  (For the `rows, cols ≥ 1`
range every claim quantifies over, natural subtraction agrees with the
Python integer arithmetic.) -/
def totalWidth (images : List Img) (rows cols hs margin : Nat) : Nat :=
  (colWidths images rows cols).sum + (cols - 1) * hs + 2 * margin

/-- Unscaled total canvas height. -/
def totalHeight (images : List Img) (rows cols vs margin : Nat) : Nat :=
  (rowHeights images rows cols).sum + (rows - 1) * vs + 2 * margin

/-- `ImageProcessor.create_combined_image` (lines 205-295): `None` when the
image list is empty; otherwise the canvas sized by the (possibly capped)
totals, with the paste coordinates computed from the *uncapped* geometry,
exactly as in the source.  `int(total * (16384 / max(tw, th)))` on exact
arithmetic is the natural-number division `total * 16384 / max tw th`. -/
def create_combined_image (images : List Img) (rows cols hs vs : Nat)
    (bg : BgColor) (margin : Nat) (al : Align) : Option Canvas :=
  if images = [] then none
  else
    let tw := totalWidth images rows cols hs margin
    let th := totalHeight images rows cols vs margin
    let dims : Nat × Nat :=
      if maxCanvasSize < tw ∨ maxCanvasSize < th then
        (tw * maxCanvasSize / max tw th, th * maxCanvasSize / max tw th)
      else (tw, th)
    some { width := dims.1, height := dims.2,
           rgba := bg = BgColor.transparent,
           pastes := placements images rows cols hs vs margin al,
           labels := [] }

example :
    create_combined_image [⟨100, 50⟩, ⟨60, 80⟩, ⟨30, 30⟩] 2 2 20 20
      BgColor.white 10 Align.center =
    some { width := 10 * 2 + (100 + 60) + 20, height := 10 * 2 + (80 + 30) + 20,
           rgba := false,
           pastes := [
      ⟨0, 0, 0, 10, 10 + 15, ⟨100, 50⟩⟩,
      ⟨1, 0, 1, 10 + 100 + 20, 10, ⟨60, 80⟩⟩,
      ⟨2, 1, 0, 10 + 35, 10 + 80 + 20, ⟨30, 30⟩⟩],
           labels := [] } := by decide

/-- A quotient `a * c / m` with `a ≤ m` never exceeds `c`. -/
theorem mul_div_le_of_le {a c m : Nat} (hm : 0 < m) (ham : a ≤ m) :
    a * c / m ≤ c :=
  le_of_le_of_eq (Nat.div_le_div_right (Nat.mul_le_mul_right c ham))
    (Nat.mul_div_cancel_left c hm)

/-- C1 (confirmed): when the unscaled totals stay within the 16384 px
ceiling, the allocated canvas dimensions are exactly
`margin*2 + Σ col_widths + (cols-1)*h_spacing` and
`margin*2 + Σ row_heights + (rows-1)*v_spacing`. -/
theorem c1_canvas_dims_uncapped (images : List Img) (rows cols hs vs margin : Nat)
    (bg : BgColor) (al : Align)
    (hne : images ≠ []) (_hr : 1 ≤ rows) (_hc : 1 ≤ cols)
    (hcw : totalWidth images rows cols hs margin ≤ maxCanvasSize)
    (hch : totalHeight images rows cols vs margin ≤ maxCanvasSize) :
    ∃ cv : Canvas,
      create_combined_image images rows cols hs vs bg margin al = some cv ∧
      cv.width = margin * 2 + (colWidths images rows cols).sum + (cols - 1) * hs ∧
      cv.height = margin * 2 + (rowHeights images rows cols).sum + (rows - 1) * vs := by
  have hcond : ¬ (maxCanvasSize < totalWidth images rows cols hs margin ∨
      maxCanvasSize < totalHeight images rows cols vs margin) := by
    push_neg
    exact ⟨hcw, hch⟩
  simp only [create_combined_image, if_neg hne, if_neg hcond]
  refine ⟨_, rfl, ?_, ?_⟩
  · simp only [totalWidth]
    ring
  · simp only [totalHeight]
    ring

/-- Witness for `c1_canvas_dims_uncapped` on the spec's 2×2 end-to-end
scenario sizes. -/
theorem c1_witness :
    (([⟨600, 400⟩, ⟨800, 600⟩, ⟨500, 500⟩, ⟨700, 300⟩] : List Img) ≠ [] ∧
     (1 : Nat) ≤ 2 ∧ (1 : Nat) ≤ 2 ∧
     totalWidth [⟨600, 400⟩, ⟨800, 600⟩, ⟨500, 500⟩, ⟨700, 300⟩] 2 2 20 10 ≤ maxCanvasSize ∧
     totalHeight [⟨600, 400⟩, ⟨800, 600⟩, ⟨500, 500⟩, ⟨700, 300⟩] 2 2 20 10 ≤ maxCanvasSize) ∧
    (∃ cv : Canvas,
      create_combined_image [⟨600, 400⟩, ⟨800, 600⟩, ⟨500, 500⟩, ⟨700, 300⟩] 2 2 20 20
        BgColor.white 10 Align.center = some cv ∧
      cv.width = 10 * 2 + (colWidths [⟨600, 400⟩, ⟨800, 600⟩, ⟨500, 500⟩, ⟨700, 300⟩] 2 2).sum +
        (2 - 1) * 20 ∧
      cv.height = 10 * 2 + (rowHeights [⟨600, 400⟩, ⟨800, 600⟩, ⟨500, 500⟩, ⟨700, 300⟩] 2 2).sum +
        (2 - 1) * 20) :=
  ⟨⟨by decide, by decide, by decide, by decide, by decide⟩,
    c1_canvas_dims_uncapped [⟨600, 400⟩, ⟨800, 600⟩, ⟨500, 500⟩, ⟨700, 300⟩] 2 2 20 20 10
      BgColor.white Align.center (by decide) (by decide) (by decide) (by decide) (by decide)⟩

/-- C6 (confirmed): whenever an unscaled total exceeds the 16384 px ceiling,
both canvas dimensions are the floor of the corresponding total multiplied
by the single factor `16384 / max(total_width, total_height)`, and both end
up at most 16384. -/
theorem c6_cap_scaling (images : List Img) (rows cols hs vs margin : Nat)
    (bg : BgColor) (al : Align) (hne : images ≠ [])
    (hover : maxCanvasSize < totalWidth images rows cols hs margin ∨
      maxCanvasSize < totalHeight images rows cols vs margin) :
    ∃ cv : Canvas,
      create_combined_image images rows cols hs vs bg margin al = some cv ∧
      cv.width = totalWidth images rows cols hs margin * maxCanvasSize /
        max (totalWidth images rows cols hs margin) (totalHeight images rows cols vs margin) ∧
      cv.height = totalHeight images rows cols vs margin * maxCanvasSize /
        max (totalWidth images rows cols hs margin) (totalHeight images rows cols vs margin) ∧
      cv.width ≤ maxCanvasSize ∧ cv.height ≤ maxCanvasSize := by
  have hmaxpos : 0 < max (totalWidth images rows cols hs margin)
      (totalHeight images rows cols vs margin) := by
    rcases hover with h | h
    · exact lt_of_le_of_lt (Nat.zero_le _) (lt_of_lt_of_le h (le_max_left _ _))
    · exact lt_of_le_of_lt (Nat.zero_le _) (lt_of_lt_of_le h (le_max_right _ _))
  simp only [create_combined_image, if_neg hne, if_pos hover]
  exact ⟨_, rfl, rfl, rfl,
    mul_div_le_of_le hmaxpos (le_max_left _ _),
    mul_div_le_of_le hmaxpos (le_max_right _ _)⟩

/-- Witness for `c6_cap_scaling`: a single 20000×10 image in a 1×1 grid. -/
theorem c6_witness :
    (([⟨20000, 10⟩] : List Img) ≠ [] ∧
     maxCanvasSize < totalWidth [⟨20000, 10⟩] 1 1 0 0) ∧
    (∃ cv : Canvas,
      create_combined_image [⟨20000, 10⟩] 1 1 0 0 BgColor.white 0 Align.center = some cv ∧
      cv.width = totalWidth [⟨20000, 10⟩] 1 1 0 0 * maxCanvasSize /
        max (totalWidth [⟨20000, 10⟩] 1 1 0 0) (totalHeight [⟨20000, 10⟩] 1 1 0 0) ∧
      cv.height = totalHeight [⟨20000, 10⟩] 1 1 0 0 * maxCanvasSize /
        max (totalWidth [⟨20000, 10⟩] 1 1 0 0) (totalHeight [⟨20000, 10⟩] 1 1 0 0) ∧
      cv.width ≤ maxCanvasSize ∧ cv.height ≤ maxCanvasSize) :=
  ⟨⟨by decide, by decide⟩,
    c6_cap_scaling [⟨20000, 10⟩] 1 1 0 0 0 BgColor.white Align.center
      (by decide) (Or.inl (by decide))⟩

/-- Any index `r*cols + c` touched by the geometry loops with `r < rows`
and `c < cols` lies below `rows * cols`. -/
theorem loop_index_lt {r c rows cols : Nat} (hr : r < rows) (hc : c < cols) :
    r * cols + c < rows * cols := by
  have h1 : r * cols + c < (r + 1) * cols := by
    rw [Nat.succ_mul]
    exact Nat.add_lt_add_left hc _
  exact lt_of_lt_of_le h1 (Nat.mul_le_mul_right cols hr)

theorem rowHeight_take (images : List Img) (rows cols r : Nat) (hr : r < rows) :
    rowHeight (images.take (rows * cols)) cols r = rowHeight images cols r := by
  unfold rowHeight
  congr 1
  refine List.filterMap_congr (fun c hc => ?_)
  rw [List.mem_range] at hc
  exact List.getElem?_take_of_lt (loop_index_lt hr hc)

theorem colWidth_take (images : List Img) (rows cols c : Nat) (hc : c < cols) :
    colWidth (images.take (rows * cols)) rows cols c = colWidth images rows cols c := by
  unfold colWidth
  congr 1
  refine List.filterMap_congr (fun r hr => ?_)
  rw [List.mem_range] at hr
  exact List.getElem?_take_of_lt (loop_index_lt hr hc)

theorem rowHeights_take (images : List Img) (rows cols : Nat) :
    rowHeights (images.take (rows * cols)) rows cols = rowHeights images rows cols := by
  unfold rowHeights
  refine List.map_congr_left (fun r hr => ?_)
  rw [List.mem_range] at hr
  exact rowHeight_take images rows cols r hr

theorem colWidths_take (images : List Img) (rows cols : Nat) :
    colWidths (images.take (rows * cols)) rows cols = colWidths images rows cols := by
  unfold colWidths
  refine List.map_congr_left (fun c hc => ?_)
  rw [List.mem_range] at hc
  exact colWidth_take images rows cols c hc

theorem placements_take (images : List Img) (rows cols hs vs margin : Nat) (al : Align) :
    placements (images.take (rows * cols)) rows cols hs vs margin al =
      placements images rows cols hs vs margin al := by
  unfold placements
  rw [colWidths_take, rowHeights_take]
  refine List.flatMap_congr (fun r hr => ?_)
  rw [List.mem_range] at hr
  refine List.filterMap_congr (fun c hc => ?_)
  rw [List.mem_range] at hc
  rw [List.getElem?_take_of_lt (loop_index_lt hr hc)]

/-- Projecting a field out of a filterMap over all-`some` lookups is the
plain map of that field's value. -/
theorem filterMap_lookup_map_proj {α γ δ : Type} (L : List α) (g : α → Option Img)
    (F : α → Img → γ) (proj : γ → δ) (e : α → δ)
    (hsome : ∀ a ∈ L, (g a).isSome) (hproj : ∀ a b, proj (F a b) = e a) :
    (L.filterMap (fun a => (g a).map (F a))).map proj = L.map e := by
  induction L with
  | nil => rfl
  | cons a L ih =>
    obtain ⟨b, hb⟩ := Option.isSome_iff_exists.mp (hsome a (List.mem_cons_self a L))
    rw [List.filterMap_cons, hb]
    simp only [Option.map_some', List.map_cons, hproj]
    rw [ih (fun x hx => hsome x (List.mem_cons_of_mem a hx))]

/-- The flattened row-major index sequence of the nested loops is
`range (rows * cols)`. -/
theorem flatMap_range_mul (rows cols : Nat) :
    (List.range rows).flatMap (fun r => (List.range cols).map (fun c => r * cols + c)) =
      List.range (rows * cols) := by
  induction rows with
  | zero => simp
  | succ r ih =>
    rw [List.range_succ, List.flatMap_append, ih, Nat.succ_mul, List.range_add]
    simp

/-- C7 (confirmed): when more images are supplied than `rows*cols` cells,
the composition succeeds, is identical to the composition of the first
`rows*cols` images (geometry and canvas never see the dropped images), and
pastes exactly the images of row-major index `0 .. rows*cols - 1`, index
`i` going to row `i / cols`, column `i % cols`. -/
theorem c7_excess_images_dropped (images : List Img) (rows cols hs vs margin : Nat)
    (bg : BgColor) (al : Align)
    (hr : 1 ≤ rows) (hc : 1 ≤ cols) (hlen : rows * cols < images.length) :
    create_combined_image (images.take (rows * cols)) rows cols hs vs bg margin al =
      create_combined_image images rows cols hs vs bg margin al ∧
    ∃ cv : Canvas,
      create_combined_image images rows cols hs vs bg margin al = some cv ∧
      cv.pastes.map (fun p => p.idx) = List.range (rows * cols) ∧
      ∀ p ∈ cv.pastes, images[p.idx]? = some p.img ∧
        p.row = p.idx / cols ∧ p.col = p.idx % cols := by
  have hcells : 1 ≤ rows * cols := Nat.mul_le_mul hr hc
  have hpos : 0 < images.length := lt_of_le_of_lt (Nat.zero_le _) hlen
  have hne : images ≠ [] := List.length_pos.mp hpos
  have hne' : images.take (rows * cols) ≠ [] := by
    apply List.length_pos.mp
    rw [List.length_take]
    exact lt_of_lt_of_le Nat.zero_lt_one (le_min hcells hpos)
  have htw : totalWidth (images.take (rows * cols)) rows cols hs margin =
      totalWidth images rows cols hs margin := by
    unfold totalWidth
    rw [colWidths_take]
  have hth : totalHeight (images.take (rows * cols)) rows cols vs margin =
      totalHeight images rows cols vs margin := by
    unfold totalHeight
    rw [rowHeights_take]
  refine ⟨?_, ?_⟩
  · simp only [create_combined_image, if_neg hne, if_neg hne', htw, hth, placements_take]
  · simp only [create_combined_image, if_neg hne]
    refine ⟨_, rfl, ?_, ?_⟩
    · show (placements images rows cols hs vs margin al).map (fun p => p.idx) =
        List.range (rows * cols)
      have hrowmap : ∀ r ∈ List.range rows,
          ((List.range cols).filterMap (fun c => (images[r * cols + c]?).map (fun im =>
            ({ idx := r * cols + c, row := r, col := c,
               x := cellX (colWidths images rows cols) hs margin c +
                 alignDX al ((colWidths images rows cols).getD c 0) im.width,
               y := cellY (rowHeights images rows cols) vs margin r +
                 alignDY ((rowHeights images rows cols).getD r 0) im.height,
               img := im } : Placement)))).map (fun p => p.idx) =
          (List.range cols).map (fun c => r * cols + c) := by
        intro r hrm
        rw [List.mem_range] at hrm
        refine filterMap_lookup_map_proj _ _ _ _ _ (fun c hcm => ?_) (fun c im => rfl)
        rw [List.mem_range] at hcm
        rw [List.getElem?_eq_getElem (lt_trans (loop_index_lt hrm hcm) hlen)]
        rfl
      calc (placements images rows cols hs vs margin al).map (fun p => p.idx)
          = (List.range rows).flatMap (fun r => ((List.range cols).filterMap
              (fun c => (images[r * cols + c]?).map (fun im =>
                ({ idx := r * cols + c, row := r, col := c,
                   x := cellX (colWidths images rows cols) hs margin c +
                     alignDX al ((colWidths images rows cols).getD c 0) im.width,
                   y := cellY (rowHeights images rows cols) vs margin r +
                     alignDY ((rowHeights images rows cols).getD r 0) im.height,
                   img := im } : Placement)))).map (fun p => p.idx)) := by
            simp only [placements, List.map_flatMap]
        _ = (List.range rows).flatMap (fun r =>
              (List.range cols).map (fun c => r * cols + c)) :=
            List.flatMap_congr hrowmap
        _ = List.range (rows * cols) := flatMap_range_mul rows cols
    · intro p hp
      have cpos : 0 < cols := hc
      simp only [placements, List.mem_flatMap, List.mem_filterMap, List.mem_range,
        Option.map_eq_some'] at hp
      obtain ⟨r, hrm, c, hcm, im, him, hpeq⟩ := hp
      subst hpeq
      refine ⟨him, ?_, ?_⟩
      · show r = (r * cols + c) / cols
        rw [Nat.mul_comm r cols, Nat.mul_add_div cpos, Nat.div_eq_of_lt hcm,
          Nat.add_zero]
      · show c = (r * cols + c) % cols
        rw [Nat.mul_comm r cols, Nat.mul_add_mod, Nat.mod_eq_of_lt hcm]

/-- Witness for `c7_excess_images_dropped`: five images in a 2×2 grid. -/
theorem c7_witness :
    ((1 : Nat) ≤ 2 ∧ (1 : Nat) ≤ 2 ∧
      2 * 2 < ([⟨10, 10⟩, ⟨20, 10⟩, ⟨10, 20⟩, ⟨30, 30⟩, ⟨99, 99⟩] : List Img).length) ∧
    (create_combined_image
        (([⟨10, 10⟩, ⟨20, 10⟩, ⟨10, 20⟩, ⟨30, 30⟩, ⟨99, 99⟩] : List Img).take (2 * 2))
        2 2 20 20 BgColor.white 10 Align.center =
      create_combined_image [⟨10, 10⟩, ⟨20, 10⟩, ⟨10, 20⟩, ⟨30, 30⟩, ⟨99, 99⟩]
        2 2 20 20 BgColor.white 10 Align.center ∧
    ∃ cv : Canvas,
      create_combined_image [⟨10, 10⟩, ⟨20, 10⟩, ⟨10, 20⟩, ⟨30, 30⟩, ⟨99, 99⟩]
        2 2 20 20 BgColor.white 10 Align.center = some cv ∧
      cv.pastes.map (fun p => p.idx) = List.range (2 * 2) ∧
      ∀ p ∈ cv.pastes,
        ([⟨10, 10⟩, ⟨20, 10⟩, ⟨10, 20⟩, ⟨30, 30⟩, ⟨99, 99⟩] : List Img)[p.idx]? = some p.img ∧
        p.row = p.idx / 2 ∧ p.col = p.idx % 2) :=
  ⟨⟨by decide, by decide, by decide⟩,
    c7_excess_images_dropped [⟨10, 10⟩, ⟨20, 10⟩, ⟨10, 20⟩, ⟨30, 30⟩, ⟨99, 99⟩]
      2 2 20 20 10 BgColor.white Align.center (by decide) (by decide) (by decide)⟩

/-! ## Label annotation (`ImageProcessor.add_labels`) -/

/-- The four label anchor corners. -/
inductive LabelPos
  | top_left
  | top_right
  | bottom_left
  | bottom_right
deriving DecidableEq, Repr

/-- The label pass of `ImageProcessor.add_labels` (lines 354-433): it
recomputes the same per-row/per-column geometry as the compositor from
`self.images`, generates the text for each occupied cell and anchors it at
the chosen corner of the placed image, measuring text via the loaded font
(`draw.textbbox`), which we abstract as the `measure` oracle. -/
def labelDraws (images : List Img) (rows cols : Nat) (fmt : LabelFormat)
    (pos : LabelPos) (labelMargin hs vs margin : Nat) (al : Align)
    (measure : String → Nat × Nat) : List DrawnLabel :=
  (List.range rows).flatMap (fun r =>
    (List.range cols).filterMap (fun c =>
      (images[r * cols + c]?).map (fun im =>
        let text := labelText fmt (r * cols + c)
        let imgX : Int := cellX (colWidths images rows cols) hs margin c +
          alignDX al ((colWidths images rows cols).getD c 0) im.width
        let imgY : Int := cellY (rowHeights images rows cols) vs margin r +
          alignDY ((rowHeights images rows cols).getD r 0) im.height
        let xy : Int × Int :=
          match pos with
          | LabelPos.top_left => (imgX + labelMargin, imgY + labelMargin)
          | LabelPos.top_right =>
            (imgX + im.width - (measure text).1 - labelMargin, imgY + labelMargin)
          | LabelPos.bottom_left =>
            (imgX + labelMargin, imgY + im.height - (measure text).2 - labelMargin)
          | LabelPos.bottom_right =>
            (imgX + im.width - (measure text).1 - labelMargin,
             imgY + im.height - (measure text).2 - labelMargin)
        { idx := r * cols + c, text := text, x := xy.1, y := xy.2 })))

/-- `ImageProcessor.add_labels`: called on `None` (a failed composition) the
body raises on the first attribute access and the blanket `except` returns
the input unchanged; otherwise the canvas is converted to RGBA and the
labels are drawn onto it. -/
def add_labels (combined : Option Canvas) (images : List Img) (rows cols : Nat)
    (fmt : LabelFormat) (pos : LabelPos) (labelMargin hs vs margin : Nat)
    (al : Align) (measure : String → Nat × Nat) : Option Canvas :=
  match combined with
  | none => none
  | some cv =>
    some { cv with
      rgba := true,
      labels := cv.labels ++
        labelDraws images rows cols fmt pos labelMargin hs vs margin al measure }

/-! ## GUI preview / export pipelines (`gui.py`) -/

/-- The mutable processor session shared by the GUI:
`ImageProcessor.images` and `ImageProcessor.image_paths`. -/
structure ProcState where
  images : List Img
  image_paths : List String
deriving DecidableEq, Repr

/-- The GUI selections consumed between the image-list substitution and its
restoration.  Every combo box is populated with a fixed item list whose
entries are exactly the keys of the corresponding lookup dict in
`update_preview` / `output_image`, so the selections are modelled as the
codomain enumerations and the dict lookups become total. -/
structure GuiSel where
  resizeSel : RMode
  aspectSel : Option (Nat × Nat)
  unitCm : Bool
  bgSel : BgColor
  alignSel : Align
  fmtSel : LabelFormat
  posSel : LabelPos
deriving DecidableEq

/-- `ConfigManager.get_spacing_in_pixels(s, 'cm')` = `int(s * 37.8)`,
i.e. the floor of `s * 189/5` on exact arithmetic. -/
def get_spacing_in_pixels (s : Nat) : Nat := s * 189 / 5

/-- `MainWindow.update_preview` (`gui.py` lines 481-611), viewed through the
processor state: resize every loaded image with `fast=True`, substitute the
resized list into the processor, compose and label from it, then restore
the original list before the preview is displayed.  Composition and
labeling cannot propagate exceptions (both swallow them internally and
yield `None`/their input), so every step between substitution and
restoration is total. -/
def update_preview (st : ProcState) (sel : GuiSel)
    (sizeV rows cols hs vs canvasMargin labelMargin : Nat)
    (measure : String → Nat × Nat) : ProcState × Option Canvas :=
  if st.images = [] then (st, none)
  else
    let resized := st.images.map (fun im =>
      resize_image im sel.resizeSel sizeV sel.aspectSel true)
    let original_images := st.images
    let st1 : ProcState := { st with images := resized }
    let hs' := if sel.unitCm then get_spacing_in_pixels hs else hs
    let vs' := if sel.unitCm then get_spacing_in_pixels vs else vs
    let combined := create_combined_image st1.images rows cols hs' vs'
      sel.bgSel canvasMargin sel.alignSel
    let labeled := add_labels combined st1.images rows cols sel.fmtSel sel.posSel
      labelMargin hs' vs' canvasMargin sel.alignSel measure
    let st2 : ProcState := { st1 with images := original_images }
    (st2, labeled)

/-- `MainWindow.output_image` (`gui.py` lines 613-756): after the early
returns (no preview yet, save dialog cancelled), the originals are reloaded
from disk (`decode`; a decode failure raises *before* the substitution and
the outer handler returns with the processor untouched), resized with
`fast=False`, substituted, composed, labeled, restored, and only then
saved (`save_image` catches its own errors and reports a failure pair). -/
def output_image (st : ProcState) (havePreview : Bool) (savePath : Option String)
    (sel : GuiSel) (sizeV rows cols hs vs canvasMargin labelMargin : Nat)
    (decode : String → Option Img) (save : Canvas → Bool × String)
    (measure : String → Nat × Nat) : ProcState × Option (Bool × String) :=
  if havePreview = false then (st, none)
  else
    match savePath with
    | none => (st, none)
    | some _ =>
      match st.image_paths.mapM decode with
      | none => (st, none)
      | some originals =>
        let resized := originals.map (fun im =>
          resize_image im sel.resizeSel sizeV sel.aspectSel false)
        let original_images := st.images
        let st1 : ProcState := { st with images := resized }
        let hs' := if sel.unitCm then get_spacing_in_pixels hs else hs
        let vs' := if sel.unitCm then get_spacing_in_pixels vs else vs
        let combined := create_combined_image st1.images rows cols hs' vs'
          sel.bgSel canvasMargin sel.alignSel
        let labeled := add_labels combined st1.images rows cols sel.fmtSel sel.posSel
          labelMargin hs' vs' canvasMargin sel.alignSel measure
        let st2 : ProcState := { st1 with images := original_images }
        let result := match labeled with
          | none => (false, "save failed")
          | some cv => save cv
        (st2, some result)

/-- C9 (confirmed): both the preview and the export pipeline return the
processor with its image list equal to the value it had on entry, for every
session state, every GUI selection, and every outcome of decoding,
composition, labeling and saving (failed composition/labeling included:
those stages swallow their exceptions and flow as `none` values into the
restoration point). -/
theorem c9_images_restored (st : ProcState) (sel : GuiSel)
    (sizeV rows cols hs vs canvasMargin labelMargin : Nat)
    (measure : String → Nat × Nat) (havePreview : Bool) (savePath : Option String)
    (decode : String → Option Img) (save : Canvas → Bool × String) :
    (update_preview st sel sizeV rows cols hs vs canvasMargin labelMargin
      measure).1.images = st.images ∧
    (output_image st havePreview savePath sel sizeV rows cols hs vs canvasMargin
      labelMargin decode save measure).1.images = st.images := by
  constructor
  · unfold update_preview
    split
    · rfl
    · rfl
  · unfold output_image
    split
    · rfl
    · split
      · rfl
      · split
        · rfl
        · rfl

/-! ## Image loading (`ImageProcessor.load_images`) -/

/-- `round_aspect(number, key)` inside `PIL.Image.thumbnail`: of floor and
ceil keep the one with the smaller key (Python's `min` keeps the first
argument, the floor, on ties), but never less than 1. -/
def round_aspect (q : ℚ) (key : ℤ → ℚ) : ℤ :=
  max (if key ⌊q⌋ ≤ key ⌈q⌉ then ⌊q⌋ else ⌈q⌉) 1

/-- Modelled from the spec: the dimension behavior of the external
`PIL.Image.thumbnail((cap, cap))` call used by `load_images` (the library
itself is not part of the repository).  It returns unchanged dimensions
when the image already fits, raises (`none`) on a zero height (the aspect
division), and otherwise shrinks the dominating axis to `cap` and rounds
the other via `round_aspect`, preserving aspect ratio. -/
def thumbnailDims (w h cap : Nat) : Option (Nat × Nat) :=
  if cap ≥ w ∧ cap ≥ h then some (w, h)
  else if h = 0 then none
  else
    let aspect : ℚ := (w : ℚ) / (h : ℚ)
    if (cap : ℚ) / (cap : ℚ) ≥ aspect then
      some ((round_aspect ((cap : ℚ) * aspect)
        (fun n => |aspect - (n : ℚ) / (cap : ℚ)|)).toNat, cap)
    else
      some (cap, (round_aspect ((cap : ℚ) / aspect)
        (fun n => if n = 0 then 0 else |aspect - (cap : ℚ) / (n : ℚ)|)).toNat)

/-- The per-image thumbnail step of `load_images` (lines 76-84): images
whose longest edge exceeds 1024 px are replaced by their
`thumbnail((1024, 1024))`; a raised exception (`none`) is caught by the
per-path handler, which records an error and skips the image. -/
def load_process (img : Img) : Option Img :=
  if 1024 < max img.width img.height then
    (thumbnailDims img.width img.height 1024).map (fun d => ⟨d.1, d.2⟩)
  else some img

/-- One iteration of the `for path in paths` loop of `load_images`:
duplicates are skipped, a failed decode or a raised thumbnail records an
error (second component `false`), a processed image is appended. -/
def load_step (decode : String → Option Img) (acc : ProcState × Bool)
    (p : String) : ProcState × Bool :=
  if p ∈ acc.1.image_paths then acc
  else
    match decode p with
    | none => (acc.1, false)
    | some img =>
      match load_process img with
      | none => (acc.1, false)
      | some t =>
        ({ images := acc.1.images ++ [t],
           image_paths := acc.1.image_paths ++ [p] }, acc.2)

/-- `ImageProcessor.load_images` (lines 33-99): fold the per-path step over
the requested paths; the boolean is the success flag of the returned pair
(`False` as soon as any error message was aggregated). -/
def load_images (st : ProcState) (paths : List String)
    (decode : String → Option Img) : ProcState × Bool :=
  paths.foldl (load_step decode) (st, true)

theorem round_aspect_toNat_le {q : ℚ} {cap : Nat} (key : ℤ → ℚ)
    (hq : q ≤ (cap : ℚ)) (hcap : 1 ≤ cap) :
    (round_aspect q key).toNat ≤ cap := by
  rw [Int.toNat_le]
  have hceil : ⌈q⌉ ≤ (cap : ℤ) := Int.ceil_le.mpr (by exact_mod_cast hq)
  have hfloor : ⌊q⌋ ≤ (cap : ℤ) := le_trans (Int.floor_le_ceil q) hceil
  unfold round_aspect
  apply max_le
  · split
    · exact hfloor
    · exact hceil
  · exact_mod_cast hcap

theorem thumbnailDims_le {w h d1 d2 : Nat} (hover : 1024 < max w h)
    (heq : thumbnailDims w h 1024 = some (d1, d2)) :
    max d1 d2 ≤ 1024 := by
  unfold thumbnailDims at heq
  have hnotfit : ¬ (1024 ≥ w ∧ 1024 ≥ h) := by
    rintro ⟨h1, h2⟩
    exact absurd (max_le h1 h2) (not_le.mpr hover)
  rw [if_neg hnotfit] at heq
  by_cases hh : h = 0
  · rw [if_pos hh] at heq
    exact absurd heq (by simp)
  · rw [if_neg hh] at heq
    simp only at heq
    have hcapq : ((1024 : Nat) : ℚ) / ((1024 : Nat) : ℚ) = 1 := by norm_num
    by_cases hbr : ((1024 : Nat) : ℚ) / ((1024 : Nat) : ℚ) ≥ (w : ℚ) / (h : ℚ)
    · rw [if_pos hbr] at heq
      have hasp : (w : ℚ) / (h : ℚ) ≤ 1 := by
        rw [hcapq] at hbr
        exact hbr
      have hq : ((1024 : Nat) : ℚ) * ((w : ℚ) / (h : ℚ)) ≤ ((1024 : Nat) : ℚ) :=
        mul_le_of_le_one_right (by norm_num) hasp
      simp only [Option.some.injEq, Prod.mk.injEq] at heq
      obtain ⟨h1eq, h2eq⟩ := heq
      rw [← h1eq, ← h2eq]
      exact max_le (round_aspect_toNat_le _ hq (by norm_num)) (le_refl _)
    · rw [if_neg hbr] at heq
      have hasp : 1 < (w : ℚ) / (h : ℚ) := by
        rw [hcapq] at hbr
        exact lt_of_not_ge hbr
      have hq : ((1024 : Nat) : ℚ) / ((w : ℚ) / (h : ℚ)) ≤ ((1024 : Nat) : ℚ) :=
        div_le_self (by norm_num) (le_of_lt hasp)
      simp only [Option.some.injEq, Prod.mk.injEq] at heq
      obtain ⟨h1eq, h2eq⟩ := heq
      rw [← h1eq, ← h2eq]
      exact max_le (le_refl _) (round_aspect_toNat_le _ hq (by norm_num))

theorem load_process_le {img t : Img} (h : load_process img = some t) :
    max t.width t.height ≤ 1024 := by
  unfold load_process at h
  by_cases hover : 1024 < max img.width img.height
  · rw [if_pos hover] at h
    obtain ⟨⟨d1, d2⟩, hd, rfl⟩ := Option.map_eq_some'.mp h
    exact thumbnailDims_le hover hd
  · rw [if_neg hover] at h
    simp only [Option.some.injEq] at h
    rw [← h]
    exact not_lt.mp hover

theorem load_fold_bounded (decode : String → Option Img) (paths : List String) :
    ∀ acc : ProcState × Bool,
      (∀ im ∈ acc.1.images, max im.width im.height ≤ 1024) →
      ∀ im ∈ (paths.foldl (load_step decode) acc).1.images,
        max im.width im.height ≤ 1024 := by
  induction paths with
  | nil => exact fun acc hacc => hacc
  | cons p ps ih =>
    intro acc hacc
    rw [List.foldl_cons]
    apply ih
    unfold load_step
    split
    · exact hacc
    · split
      · exact hacc
      · next img _ =>
        split
        · exact hacc
        · next t hproc =>
          intro im him
          simp only [List.mem_append, List.mem_singleton] at him
          rcases him with h1 | h1
          · exact hacc im h1
          · rw [h1]
            exact load_process_le hproc

/-- C10 (confirmed): loading preserves the invariant that every stored
image has longest edge at most 1024 px — any decoded source larger than
that is replaced at load time by its 1024-bounded thumbnail (and a source
whose thumbnailing raises is skipped), so every subsequent operation works
on the bounded list. -/
theorem c10_load_bounded (st : ProcState) (paths : List String)
    (decode : String → Option Img)
    (hpre : ∀ im ∈ st.images, max im.width im.height ≤ 1024) :
    ∀ im ∈ (load_images st paths decode).1.images,
      max im.width im.height ≤ 1024 :=
  load_fold_bounded decode paths (st, true) hpre

/-- Witness for `c10_load_bounded`: loading a 2000×1000 decode result into
an empty session. -/
theorem c10_witness :
    (∀ im ∈ (ProcState.mk [] []).images, max im.width im.height ≤ 1024) ∧
    ∀ im ∈ (load_images ⟨[], []⟩ ["a.png"]
      (fun _ => some ⟨2000, 1000⟩)).1.images, max im.width im.height ≤ 1024 :=
  ⟨by simp, c10_load_bounded ⟨[], []⟩ ["a.png"] (fun _ => some ⟨2000, 1000⟩)
    (by simp)⟩

end ImgTool
